import Mathlib

/-!
Shallow embedding of the client-side shopping-cart widget in
`src/mi_ecommerce/tienda/static/tienda/script.js`, together with proofs of
the spec's testable properties.

Modelling conventions:
* JS numbers are modelled as `ℚ` (all quantities involved are exact
  decimals; `NaN` is modelled by `Option`, with the code's
  `isNaN(x) ? 0 : x` fallback made explicit in `parsePrice`).
* JS strings are `String`, manipulated through their `List Char` data.
* The JS object `cart` is an association list `List (String × CartLine)`
  in insertion order (its keys always contain a `-`, so JS preserves
  insertion order for them).
* DOM side effects (summary region, quantity displays, hidden class)
  are modelled as explicit fields of `Summary` / `Product` / `PageState`.
* The external, fixed `Intl.NumberFormat` currency formatter is an
  opaque parameter `fmt : ℚ → String`; the only literal the code itself
  writes is the empty-cart text `"Total: $0.00"`.
-/

namespace Carrito

/-! ## Price Parser (`parsePrice`, script.js lines 18–29) -/

/-- Numeric value of a decimal digit character. -/
def digitVal (c : Char) : Nat := c.toNat - 48

/-- Value of a digit string read in base 10 (`""` reads as 0). -/
def natOfDigits (l : List Char) : Nat := l.foldl (fun a c => 10 * a + digitVal c) 0

/-- `priceString.replace(/[^\d,]/g, '')`: keep only digits and commas. -/
def cleanPrice (l : List Char) : List Char := l.filter (fun c => c.isDigit || c == ',')

/-- `cleanedPrice.replace(',', '.')`: JS `String.replace` with a string
pattern replaces only the first occurrence. -/
def replaceFirstComma : List Char → List Char
  | [] => []
  | c :: rest => if c = ',' then '.' :: rest else c :: replaceFirstComma rest

/-- JS `parseFloat`, restricted to the character set that can reach it here
(digits, commas and at most one dot): it reads the longest numeric text
`digits [. digits]` at the front of the string and returns `none` (NaN)
when no digit was consumed.  Signs, whitespace and exponents cannot
survive `cleanPrice`, so they need no modelling. -/
def parseFloatQ (l : List Char) : Option ℚ :=
  let ip := l.takeWhile Char.isDigit
  let rest := l.dropWhile Char.isDigit
  let fp := match rest with
    | '.' :: r => r.takeWhile Char.isDigit
    | _ => []
  if ip.isEmpty && fp.isEmpty then none
  else some ((natOfDigits ip : ℚ) + (natOfDigits fp : ℚ) / 10 ^ fp.length)

/-- `parsePrice` (script.js 18–29).  `none` stands for JS `null`/`undefined`;
`!priceString` is true exactly for those and for the empty string. -/
def parsePrice : Option String → ℚ
  | none => 0
  | some s =>
    if s.isEmpty then 0
    else
      match parseFloatQ (replaceFirstComma (cleanPrice s.data)) with
      | none => 0
      | some q => q

/-! ## Cart Store (the `cart` object and its mutations, script.js 10, 105–127) -/

/-- One cart entry: `{ name, price, presentation, content, quantity }`. -/
structure CartLine where
  name : String
  price : ℚ
  presentation : String
  content : String
  quantity : Nat
deriving DecidableEq, Repr

/-- The `cart` object: keys in insertion order. -/
abbrev Cart := List (String × CartLine)

/-- `cart[k]` (first entry with key `k`, if any). -/
def findLine : Cart → String → Option CartLine
  | [], _ => none
  | (k, l) :: rest, key => if k = key then some l else findLine rest key

/-- `cart[k].quantity += 1` on the entry with key `k`. -/
def bumpQty (c : Cart) (k : String) : Cart :=
  c.map (fun p => if p.1 = k then (p.1, { p.2 with quantity := p.2.quantity + 1 }) else p)

/-- `cart[k].quantity = q` on the entry with key `k`. -/
def setQty (c : Cart) (k : String) (q : Nat) : Cart :=
  c.map (fun p => if p.1 = k then (p.1, { p.2 with quantity := q }) else p)

/-- `delete cart[k]`. -/
def removeKey (c : Cart) (k : String) : Cart :=
  c.filter (fun p => p.1 != k)

/-- The add-button handler's store mutation (script.js 105–113):
if the key is absent, materialize a line with quantity 0 at the end
(JS object insertion order), then increment its quantity. -/
def increment (c : Cart) (k : String) (name : String) (price : ℚ)
    (presentation content : String) : Cart :=
  let c1 := match findLine c k with
    | none => c ++ [(k, ⟨name, price, presentation, content, 0⟩)]
    | some _ => c
  bumpQty c1 k

/-- The remove-button handler's store mutation (script.js 115–126):
no-op unless the key exists with quantity > 0; otherwise decrement and
delete the entry when the quantity reaches 0. -/
def decrement (c : Cart) (k : String) : Cart :=
  match findLine c k with
  | none => c
  | some line =>
    if 0 < line.quantity then
      if line.quantity - 1 = 0 then removeKey (setQty c k (line.quantity - 1)) k
      else setQty c k (line.quantity - 1)
    else c

/-- `Object.keys(cart).forEach(key => delete cart[key])` (script.js 83). -/
def clearCart : Cart := []

/-- The store mutations reachable from the UI: add click, remove click,
checkout's clear. -/
inductive Op where
  | inc (key : String) (name : String) (price : ℚ) (presentation content : String)
  | dec (key : String)
  | clear
deriving Repr

/-- Apply one UI event's store mutation. -/
def applyOp (c : Cart) : Op → Cart
  | .inc k name price pres cont => increment c k name price pres cont
  | .dec k => decrement c k
  | .clear => clearCart

/-- Cart state after a sequence of UI events, starting from the empty cart
(`const cart = {}` at page load). -/
def run (ops : List Op) : Cart := ops.foldl applyOp []

/-! ## Summary Renderer (`updateSummary`, script.js 35–76) -/

/-- The state `updateSummary` writes into the summary UI region. -/
structure Summary where
  /-- `summary-list` contents: one `(label span, formatted amount span)`
  per cart entry. -/
  items : List (String × String)
  /-- whether `summary-list` holds the empty-cart placeholder message -/
  emptyMessageShown : Bool
  /-- `summary-total` text -/
  totalText : String
  /-- the `total` accumulator of `updateSummary` -/
  total : ℚ
  /-- the branch condition `cartKeys.length === 0` -/
  isEmpty : Bool
  /-- `checkoutButton.disabled` -/
  checkoutDisabled : Bool
  /-- `summaryTotal.classList.toggle('empty', total === 0)` -/
  totalStyledEmpty : Bool
deriving Repr

/-- The label span of one summary item:
`${name}${presentationText}${contentText} (${quantity})` with the optional
fragments dropped when the field is the (falsy) empty string. -/
def lineLabel (item : CartLine) : String :=
  item.name
    ++ (if item.presentation.isEmpty then "" else " (" ++ item.presentation ++ ")")
    ++ (if item.content.isEmpty then "" else " - " ++ item.content)
    ++ " (" ++ toString item.quantity ++ ")"

/-- `updateSummary` (script.js 35–76), with the external `Intl.NumberFormat`
formatter passed in as `fmt`. -/
def updateSummary (fmt : ℚ → String) (c : Cart) : Summary :=
  if c.length = 0 then
    { items := []
      emptyMessageShown := true
      totalText := "Total: $0.00"
      total := 0
      isEmpty := true
      checkoutDisabled := true
      totalStyledEmpty := true }
  else
    let total := c.foldl (fun acc p => acc + p.2.price * (p.2.quantity : ℚ)) 0
    { items := c.map (fun p => (lineLabel p.2, fmt (p.2.price * (p.2.quantity : ℚ))))
      emptyMessageShown := false
      totalText := "Total: " ++ fmt total
      total := total
      isEmpty := false
      checkoutDisabled := false
      totalStyledEmpty := decide (total = 0) }

/-! ## Page state: catalog rows, checkout, search (script.js 79–141) -/

/-- One catalog `product-item` row, as far as the handlers touch it:
its (data-)name, its `hidden` class, and its `quantity-display` text. -/
structure Product where
  name : String
  hidden : Bool
  display : String
deriving DecidableEq, Repr

/-- The mutable page state shared by the handlers. -/
structure PageState where
  cart : Cart
  products : List Product
  summary : Summary

/-- The checkout-button click handler (script.js 79–88): clear the cart,
re-render the summary, reset every quantity display to `"0"`.  (The
`alert` is an external side effect with no bearing on state.) -/
def checkoutHandler (fmt : ℚ → String) (st : PageState) : PageState :=
  { cart := clearCart
    summary := updateSummary fmt clearCart
    products := st.products.map (fun p => { p with display := "0" }) }

/-- `toLowerCase()` on string data. -/
def toLowerL (l : List Char) : List Char := l.map Char.toLower

/-- `needle` begins `hay`. -/
def isPrefixL : List Char → List Char → Bool
  | [], _ => true
  | _ :: _, [] => false
  | a :: as, b :: bs => a == b && isPrefixL as bs

/-- JS `hay.includes(needle)`: `needle` occurs contiguously in `hay`
(the empty needle always occurs). -/
def includesSub (needle : List Char) : List Char → Bool
  | [] => isPrefixL needle []
  | a :: t => isPrefixL needle (a :: t) || includesSub needle t

/-- The search-input handler (script.js 130–141): lower-case the query,
and per product remove the `hidden` class when the lower-cased name
contains it, add the class otherwise.  The cart is untouched. -/
def searchHandler (term : String) (st : PageState) : PageState :=
  { st with
    products := st.products.map (fun p =>
      if includesSub (toLowerL term.data) (toLowerL p.name.data) then
        { p with hidden := false }
      else
        { p with hidden := true }) }

/-! ## Sample data used by witnesses -/

/-- Scenario A's product line, at quantity 1. -/
def sampleLine : CartLine := ⟨"Yerba", 2469/2, "500g", "", 1⟩

/-- A one-line cart. -/
def sampleCart : Cart := [("7-500g", sampleLine)]

/-- Two catalog rows. -/
def sampleProducts : List Product :=
  [⟨"Chocolate Amargo", false, "1"⟩, ⟨"Milk", false, "0"⟩]

/-- A page with a non-empty cart. -/
def samplePage : PageState :=
  ⟨sampleCart, sampleProducts, updateSummary (fun _ => ("$")) sampleCart⟩

/-! ## Lemmas about the price parser -/

theorem replaceFirstComma_digits_append (ip rest : List Char)
    (hip : ∀ c ∈ ip, c.isDigit = true) :
    replaceFirstComma (ip ++ ',' :: rest) = ip ++ '.' :: rest := by
  induction ip with
  | nil => simp [replaceFirstComma]
  | cons a as ih =>
    have ha : a.isDigit = true := hip a (List.mem_cons_self a as)
    have hne : ¬ (a = ',') := by
      intro h
      rw [h] at ha
      exact absurd ha (by decide)
    simp only [List.cons_append, replaceFirstComma, if_neg hne]
    exact congrArg (a :: ·) (ih (fun c hc => hip c (List.mem_cons_of_mem a hc)))

theorem replaceFirstComma_of_no_comma (l : List Char)
    (h : ∀ c ∈ l, ¬ (c = ',')) :
    replaceFirstComma l = l := by
  induction l with
  | nil => rfl
  | cons a as ih =>
    simp only [replaceFirstComma, if_neg (h a (List.mem_cons_self a as))]
    rw [ih (fun c hc => h c (List.mem_cons_of_mem a hc))]

theorem takeWhile_all_true (p : Char → Bool) (l : List Char)
    (h : ∀ c ∈ l, p c = true) : l.takeWhile p = l := by
  induction l with
  | nil => rfl
  | cons a as ih =>
    simp only [List.takeWhile_cons, h a (List.mem_cons_self a as), if_true]
    rw [ih (fun c hc => h c (List.mem_cons_of_mem a hc))]

theorem takeWhile_append_stop (p : Char → Bool) (ip : List Char) (x : Char)
    (rest : List Char) (h : ∀ c ∈ ip, p c = true) (hx : p x = false) :
    (ip ++ x :: rest).takeWhile p = ip ∧ (ip ++ x :: rest).dropWhile p = x :: rest := by
  induction ip with
  | nil => simp [List.takeWhile_cons, List.dropWhile_cons, hx]
  | cons a as ih =>
    have ha := h a (List.mem_cons_self a as)
    have ih' := ih (fun c hc => h c (List.mem_cons_of_mem a hc))
    constructor
    · simp only [List.cons_append, List.takeWhile_cons, ha, if_true]
      rw [ih'.1]
    · simp only [List.cons_append, List.dropWhile_cons, ha, if_true]
      rw [ih'.2]

/-- Evaluation of the modelled `parseFloat` on `ip ++ "." ++ fp ++ rest`
where `ip`, `fp` are digit runs and `rest` is empty or starts with a
non-digit: the value read is `ip.fp`, whatever follows is ignored. -/
theorem parseFloatQ_split (ip fp rest : List Char)
    (hip : ∀ c ∈ ip, c.isDigit = true) (hfp : ∀ c ∈ fp, c.isDigit = true)
    (hrest : rest = [] ∨ ∃ x xs, rest = x :: xs ∧ x.isDigit = false)
    (hne : ip ≠ [] ∨ fp ≠ []) :
    parseFloatQ (ip ++ '.' :: (fp ++ rest)) =
      some ((natOfDigits ip : ℚ) + (natOfDigits fp : ℚ) / 10 ^ fp.length) := by
  have hdot : Char.isDigit '.' = false := by decide
  have hsplit := takeWhile_append_stop Char.isDigit ip '.' (fp ++ rest) hip hdot
  have hfp' : (fp ++ rest).takeWhile Char.isDigit = fp := by
    rcases hrest with rfl | ⟨x, xs, rfl, hx⟩
    · rw [List.append_nil]
      exact takeWhile_all_true Char.isDigit fp hfp
    · exact (takeWhile_append_stop Char.isDigit fp x xs hfp hx).1
  have hcond : (ip.isEmpty && fp.isEmpty) = false := by
    rcases hne with h | h
    · cases ip with
      | nil => exact absurd rfl h
      | cons a as => rfl
    · cases fp with
      | nil => exact absurd rfl h
      | cons a as => simp [List.isEmpty]
  unfold parseFloatQ
  rw [hsplit.1, hsplit.2]
  simp only [hfp']
  rw [hcond]
  rfl

/-- `parsePrice` returns whatever the `parseFloat` stage reads from the
cleaned, comma-replaced string. -/
theorem parsePrice_eq_of_parseFloatQ (s : String) (q : ℚ)
    (h : parseFloatQ (replaceFirstComma (cleanPrice s.data)) = some q) :
    parsePrice (some s) = q := by
  have hse : s.isEmpty = false := by
    cases hse : s.isEmpty
    · rfl
    · exfalso
      have hs : s = "" := (String.isEmpty_iff s).mp hse
      rw [hs] at h
      have hnone : parseFloatQ (replaceFirstComma (cleanPrice (("" : String)).data)) = none := rfl
      rw [hnone] at h
      exact Option.noConfusion h
  simp only [parsePrice, hse, Bool.false_eq_true, if_false, h]

/-! ## Further parser evaluation helpers -/

theorem dropWhile_all_true (p : Char → Bool) (l : List Char)
    (h : ∀ c ∈ l, p c = true) : l.dropWhile p = [] := by
  induction l with
  | nil => rfl
  | cons a as ih =>
    simp only [List.dropWhile_cons, h a (List.mem_cons_self a as), if_true]
    exact ih (fun c hc => h c (List.mem_cons_of_mem a hc))

theorem parseFloatQ_all_digits (ds : List Char)
    (hd : ∀ c ∈ ds, c.isDigit = true) (hne : ds ≠ []) :
    parseFloatQ ds = some ((natOfDigits ds : ℚ)) := by
  cases ds with
  | nil => exact absurd rfl hne
  | cons a as =>
    have ht : (a :: as).takeWhile Char.isDigit = a :: as :=
      takeWhile_all_true Char.isDigit (a :: as) hd
    have hdw : (a :: as).dropWhile Char.isDigit = [] :=
      dropWhile_all_true Char.isDigit (a :: as) hd
    unfold parseFloatQ
    rw [ht, hdw]
    have h0 : natOfDigits ([] : List Char) = 0 := rfl
    simp only [List.isEmpty_cons, Bool.false_and, Bool.false_eq_true, if_false,
      List.length_nil, h0]
    norm_num

/-- The value `parsePrice` gives a string that cleans to
`digits, comma, digits`. -/
theorem parsePrice_comma_eval (s : String) (ip fp : List Char)
    (hc : cleanPrice s.data = ip ++ ',' :: fp)
    (hip : ∀ c ∈ ip, c.isDigit = true)
    (hfp : ∀ c ∈ fp, c.isDigit = true)
    (hne : ip ≠ [] ∨ fp ≠ []) :
    parsePrice (some s) =
      (natOfDigits ip : ℚ) + (natOfDigits fp : ℚ) / 10 ^ fp.length := by
  apply parsePrice_eq_of_parseFloatQ
  rw [hc, replaceFirstComma_digits_append ip fp hip]
  have h := parseFloatQ_split ip fp [] hip hfp (Or.inl rfl) hne
  rw [List.append_nil] at h
  exact h

/-- The value `parsePrice` gives a string that cleans to
`digits, comma, digits, comma, anything`. -/
theorem parsePrice_two_comma_eval (s : String) (d1 d2 rest : List Char)
    (hc : cleanPrice s.data = d1 ++ ',' :: (d2 ++ ',' :: rest))
    (h1 : ∀ c ∈ d1, c.isDigit = true)
    (h2 : ∀ c ∈ d2, c.isDigit = true)
    (hne : d1 ≠ [] ∨ d2 ≠ []) :
    parsePrice (some s) =
      (natOfDigits d1 : ℚ) + (natOfDigits d2 : ℚ) / 10 ^ d2.length := by
  apply parsePrice_eq_of_parseFloatQ
  rw [hc, replaceFirstComma_digits_append d1 (d2 ++ ',' :: rest) h1]
  exact parseFloatQ_split d1 d2 (',' :: rest) h1 h2
    (Or.inr ⟨',', rest, rfl, by decide⟩) hne

/-- The value `parsePrice` gives a string that cleans to digits only. -/
theorem parsePrice_digits_eval (s : String) (ds : List Char)
    (hc : cleanPrice s.data = ds)
    (hd : ∀ c ∈ ds, c.isDigit = true)
    (hne : ds ≠ []) :
    parsePrice (some s) = (natOfDigits ds : ℚ) := by
  apply parsePrice_eq_of_parseFloatQ
  have hnc : ∀ c ∈ ds, ¬ (c = ',') := by
    intro c hcm heq
    have := hd c hcm
    rw [heq] at this
    exact absurd this (by decide)
  rw [hc, replaceFirstComma_of_no_comma ds hnc]
  exact parseFloatQ_all_digits ds hd hne

/-! ## Claim theorems for the price parser -/

/-- C3: `parsePrice` round-trip — for every price string whose cleaned
form (digits and commas only) is a digit run, a single decimal comma and
a digit run, the parsed value is the decimal number `ip.fp` the string
denotes; currency symbols and thousands separators (any stripped
characters) are immaterial.  E.g. `parsePrice "$1.234,50" = 1234.50`. -/
theorem parsePrice_comma_roundtrip (s : String) (ip fp : List Char)
    (hc : cleanPrice s.data = ip ++ ',' :: fp)
    (hip : ∀ c ∈ ip, c.isDigit = true)
    (hfp : ∀ c ∈ fp, c.isDigit = true)
    (hne : ip ≠ [] ∨ fp ≠ []) :
    parsePrice (some s) =
      (natOfDigits ip : ℚ) + (natOfDigits fp : ℚ) / 10 ^ fp.length :=
  parsePrice_comma_eval s ip fp hc hip hfp hne

/-- C3 witness: the spec's own example `"$1.234,50"`, which cleans to
`1234,50` and parses to `1234.50 = 2469/2`. -/
theorem parsePrice_comma_roundtrip_witness :
    (cleanPrice (("$1.234,50" : String)).data =
        (("1234" : String)).data ++ ',' :: (("50" : String)).data) ∧
    parsePrice (some (("$1.234,50" : String))) = 2469 / 2 := by
  constructor
  · decide
  · have h := parsePrice_comma_roundtrip (("$1.234,50" : String))
      ((("1234" : String)).data) ((("50" : String)).data)
      (by decide) (by decide) (by decide) (Or.inl (by decide))
    have h1 : natOfDigits ((("1234" : String)).data) = 1234 := by decide
    have h2 : natOfDigits ((("50" : String)).data) = 50 := by decide
    have h3 : (("50" : String)).data.length = 2 := by decide
    rw [h, h1, h2, h3]
    norm_num

/-- C10: only the first comma of the cleaned string is replaced by a dot,
so with two or more commas the parse stops at the second comma: the value
is the number denoted by the prefix `d1,d2` — not the full amount. -/
theorem parsePrice_first_comma_only (s : String) (d1 d2 rest : List Char)
    (hc : cleanPrice s.data = d1 ++ ',' :: (d2 ++ ',' :: rest))
    (h1 : ∀ c ∈ d1, c.isDigit = true)
    (h2 : ∀ c ∈ d2, c.isDigit = true)
    (hne : d1 ≠ [] ∨ d2 ≠ []) :
    parsePrice (some s) =
      (natOfDigits d1 : ℚ) + (natOfDigits d2 : ℚ) / 10 ^ d2.length :=
  parsePrice_two_comma_eval s d1 d2 rest hc h1 h2 hne

/-- C10 witness: `"1,234,50"` cleans to itself and parses as
`1.234 = 617/500`, the prefix up to the second comma — not `1234.50`. -/
theorem parsePrice_first_comma_only_witness :
    (cleanPrice (("1,234,50" : String)).data =
        (("1" : String)).data ++ ',' ::
          ((("234" : String)).data ++ ',' :: (("50" : String)).data)) ∧
    parsePrice (some (("1,234,50" : String))) = 617 / 500 := by
  constructor
  · decide
  · have h := parsePrice_first_comma_only (("1,234,50" : String))
      ((("1" : String)).data) ((("234" : String)).data) ((("50" : String)).data)
      (by decide) (by decide) (by decide) (Or.inl (by decide))
    have h1 : natOfDigits ((("1" : String)).data) = 1 := by decide
    have h2 : natOfDigits ((("234" : String)).data) = 234 := by decide
    have h3 : (("234" : String)).data.length = 3 := by decide
    rw [h, h1, h2, h3]
    norm_num

/-- C4 counterexample: a dot is not accepted as a decimal separator.
`"12.50"` parses as `1250`, while the comma form `"12,50"` parses as
`12.5`; the two values differ. -/
theorem parsePrice_dot_counterexample :
    parsePrice (some (("12.50" : String))) = 1250 ∧
    parsePrice (some (("12,50" : String))) = 25 / 2 ∧
    parsePrice (some (("12.50" : String))) ≠ parsePrice (some (("12,50" : String))) := by
  have e1 : parsePrice (some (("12.50" : String))) = 1250 := by
    have h := parsePrice_digits_eval (("12.50" : String)) ((("1250" : String)).data)
      (by decide) (by decide) (by decide)
    have h1 : natOfDigits ((("1250" : String)).data) = 1250 := by decide
    rw [h, h1]
    norm_num
  have e2 : parsePrice (some (("12,50" : String))) = 25 / 2 := by
    have h := parsePrice_comma_eval (("12,50" : String))
      ((("12" : String)).data) ((("50" : String)).data)
      (by decide) (by decide) (by decide) (Or.inl (by decide))
    have h1 : natOfDigits ((("12" : String)).data) = 12 := by decide
    have h2 : natOfDigits ((("50" : String)).data) = 50 := by decide
    have h3 : (("50" : String)).data.length = 2 := by decide
    rw [h, h1, h2, h3]
    norm_num
  refine ⟨e1, e2, ?_⟩
  rw [e1, e2]
  norm_num

/-- C4 amended: `parsePrice` strips a dot like any other non-digit,
non-comma character (treating it as a thousands separator), so for an
input whose cleaned form is pure digits the result is the integer those
concatenated digits denote — `"12.50" ↦ 1250`, not `12.50`. -/
theorem parsePrice_dot_stripped (s : String) (ds : List Char)
    (hc : cleanPrice s.data = ds)
    (hd : ∀ c ∈ ds, c.isDigit = true)
    (hne : ds ≠ []) :
    parsePrice (some s) = (natOfDigits ds : ℚ) :=
  parsePrice_digits_eval s ds hc hd hne

/-- C4 amended witness: `"12.50"` cleans to `"1250"` and parses as 1250. -/
theorem parsePrice_dot_stripped_witness :
    (cleanPrice (("12.50" : String)).data = (("1250" : String)).data) ∧
    parsePrice (some (("12.50" : String))) = 1250 := by
  constructor
  · decide
  · have h := parsePrice_dot_stripped (("12.50" : String)) ((("1250" : String)).data)
      (by decide) (by decide) (by decide)
    have h1 : natOfDigits ((("1250" : String)).data) = 1250 := by decide
    rw [h, h1]
    norm_num

/-- C5: `parsePrice` degrades to 0 on bad input — `null`/`undefined`,
the empty string, and any string whose cleaned form does not parse
(`parseFloat` NaN) all give 0; the result is a number for every input
since `parsePrice` is total into `ℚ`. -/
theorem parsePrice_bad_inputs :
    parsePrice none = 0 ∧
    parsePrice (some (("" : String))) = 0 ∧
    parsePrice (some (("abc" : String))) = 0 ∧
    ∀ s : String,
      parseFloatQ (replaceFirstComma (cleanPrice s.data)) = none →
        parsePrice (some s) = 0 := by
  have hgen : ∀ s : String,
      parseFloatQ (replaceFirstComma (cleanPrice s.data)) = none →
        parsePrice (some s) = 0 := by
    intro s h
    cases hse : s.isEmpty
    · simp only [parsePrice, hse, Bool.false_eq_true, if_false, h]
    · simp only [parsePrice, hse, if_true]
  refine ⟨rfl, ?_, ?_, hgen⟩
  · have hse : (("" : String)).isEmpty = true := rfl
    simp only [parsePrice, hse, if_true]
  · exact hgen (("abc" : String)) (by decide)

/-- C5 witness: `",,"` cleans to `",,"`, whose comma-replaced form `".,"`
contains no digit, so the `parseFloat` stage yields NaN and `parsePrice`
falls back to 0. -/
theorem parsePrice_bad_inputs_witness :
    parseFloatQ (replaceFirstComma (cleanPrice ((",," : String)).data)) = none ∧
    parsePrice (some ((",," : String))) = 0 :=
  ⟨by decide, parsePrice_bad_inputs.2.2.2 ((",," : String)) (by decide)⟩

/-! ## Lemmas about the cart store -/

theorem inv_increment (c : Cart) (k name : String) (price : ℚ)
    (pres cont : String) (h : ∀ p ∈ c, 1 ≤ p.2.quantity) :
    ∀ p ∈ increment c k name price pres cont, 1 ≤ p.2.quantity := by
  intro p hp
  unfold increment bumpQty at hp
  rw [List.mem_map] at hp
  obtain ⟨q, hq, hfq⟩ := hp
  by_cases hk : q.1 = k
  · rw [← hfq]
    simp only [hk, if_true]
    omega
  · rw [← hfq]
    simp only [hk, if_false]
    rcases hfind : findLine c k with _ | l <;> rw [hfind] at hq
    · rcases List.mem_append.mp hq with hq' | hq'
      · exact h q hq'
      · exfalso
        have : q = (k, ⟨name, price, pres, cont, 0⟩) := List.mem_singleton.mp hq'
        rw [this] at hk
        exact hk rfl
    · exact h q hq

theorem inv_decrement (c : Cart) (k : String)
    (h : ∀ p ∈ c, 1 ≤ p.2.quantity) :
    ∀ p ∈ decrement c k, 1 ≤ p.2.quantity := by
  intro p hp
  unfold decrement at hp
  split at hp
  · exact h p hp
  · rename_i line hfind
    split at hp
    · split at hp
      · rename_i hq hz
        unfold removeKey at hp
        rw [List.mem_filter] at hp
        obtain ⟨hp1, hp2⟩ := hp
        unfold setQty at hp1
        rw [List.mem_map] at hp1
        obtain ⟨q, hq', hfq⟩ := hp1
        by_cases hk : q.1 = k
        · exfalso
          rw [← hfq] at hp2
          simp only [hk, if_true] at hp2
          exact absurd rfl (bne_iff_ne.mp hp2)
        · rw [← hfq]
          simp only [hk, if_false]
          exact h q hq'
      · rename_i hq hz
        unfold setQty at hp
        rw [List.mem_map] at hp
        obtain ⟨q, hq', hfq⟩ := hp
        by_cases hk : q.1 = k
        · rw [← hfq]
          simp only [hk, if_true]
          omega
        · rw [← hfq]
          simp only [hk, if_false]
          exact h q hq'
    · exact h p hp

theorem inv_foldl (ops : List Op) (c : Cart)
    (h : ∀ p ∈ c, 1 ≤ p.2.quantity) :
    ∀ p ∈ List.foldl applyOp c ops, 1 ≤ p.2.quantity := by
  induction ops generalizing c with
  | nil => exact h
  | cons op rest ih =>
    intro p hp
    rw [List.foldl_cons] at hp
    refine ih (applyOp c op) ?_ p hp
    cases op with
    | inc k name price pres cont => exact inv_increment c k name price pres cont h
    | dec k => exact inv_decrement c k h
    | clear =>
      intro q hq
      exact absurd hq (List.not_mem_nil q)

theorem foldl_price_sum (l : Cart) (a : ℚ) :
    l.foldl (fun acc p => acc + p.2.price * (p.2.quantity : ℚ)) a =
      a + (l.map (fun p => p.2.price * (p.2.quantity : ℚ))).sum := by
  induction l generalizing a with
  | nil => simp
  | cons x xs ih =>
    rw [List.foldl_cons, ih, List.map_cons, List.sum_cons, add_assoc]

/-! ## Claim theorems for the cart store and renderer -/

/-- C1: cart store invariant — in every store state reachable from the
empty store by any sequence of increment, decrement and checkout-clear
operations, every stored line has quantity ≥ 1; no zero-quantity line
persists after an operation completes. -/
theorem cart_quantity_invariant (ops : List Op) (p : String × CartLine)
    (hp : p ∈ run ops) : 1 ≤ p.2.quantity := by
  refine inv_foldl ops [] ?_ p hp
  intro q hq
  exact absurd hq (List.not_mem_nil q)

/-- C1 witness: after a single increment the store holds one line, of
quantity 1. -/
theorem cart_quantity_invariant_witness :
    ((("7-500g"), (⟨"Yerba", 0, "500g", "", 1⟩ : CartLine)) ∈
        run [Op.inc (("7-500g")) (("Yerba")) 0 (("500g")) ((""))]) ∧
    1 ≤ ((("7-500g" : String), (⟨"Yerba", 0, "500g", "", 1⟩ : CartLine))).2.quantity :=
  ⟨by decide,
   cart_quantity_invariant
     [Op.inc (("7-500g")) (("Yerba")) 0 (("500g")) ((""))]
     ((("7-500g" : String), (⟨"Yerba", 0, "500g", "", 1⟩ : CartLine)))
     (by decide)⟩

/-- C2: total correctness — for every cart state reachable by any
sequence of operations, the total the summary render computes (from
scratch, by folding over the current entries) equals
Σ price × quantity over those entries. -/
theorem rendered_total_correct (fmt : ℚ → String) (ops : List Op) :
    (updateSummary fmt (run ops)).total =
      ((run ops).map (fun p => p.2.price * (p.2.quantity : ℚ))).sum := by
  unfold updateSummary
  by_cases hc : (run ops).length = 0
  · rw [if_pos hc]
    rw [List.length_eq_zero.mp hc]
    rfl
  · rw [if_neg hc]
    rw [foldl_price_sum, zero_add]

/-- C6: decrementing an absent key (or a zero-quantity line, were one
ever stored) is a silent no-op, so doing it twice equals doing it
once. -/
theorem decrement_absent_idem (c : Cart) (k : String)
    (h : findLine c k = none ∨ ∃ l, findLine c k = some l ∧ l.quantity = 0) :
    decrement c k = c ∧ decrement (decrement c k) k = decrement c k := by
  have h1 : decrement c k = c := by
    unfold decrement
    rcases h with h | ⟨l, hl, hq⟩
    · rw [h]
    · rw [hl]
      have hlt : ¬ 0 < l.quantity := by omega
      simp [hlt]
  refine ⟨h1, ?_⟩
  rw [h1]
  exact h1

/-- C6 witness: key `"9-"` is absent from the one-line sample cart. -/
theorem decrement_absent_idem_witness :
    findLine sampleCart (("9-")) = none ∧
    (decrement sampleCart (("9-")) = sampleCart ∧
      decrement (decrement sampleCart (("9-"))) (("9-")) =
        decrement sampleCart (("9-"))) :=
  ⟨by decide, decrement_absent_idem sampleCart (("9-")) (Or.inl (by decide))⟩

/-- C7: empty-state render — on the empty store the render reports
`isEmpty`, shows the placeholder message, forces the total display to the
zero-amount string and disables the checkout control; on any non-empty
store the checkout control is enabled. -/
theorem empty_state_render (fmt : ℚ → String) (c : Cart) (hc : c ≠ []) :
    (updateSummary fmt []).isEmpty = true ∧
    (updateSummary fmt []).emptyMessageShown = true ∧
    (updateSummary fmt []).totalText = "Total: $0.00" ∧
    (updateSummary fmt []).total = 0 ∧
    (updateSummary fmt []).checkoutDisabled = true ∧
    (updateSummary fmt c).checkoutDisabled = false := by
  refine ⟨rfl, rfl, rfl, rfl, rfl, ?_⟩
  unfold updateSummary
  rw [if_neg (fun h => hc (List.length_eq_zero.mp h))]

/-- C7 witness: the sample one-line cart is non-empty and renders with
checkout enabled. -/
theorem empty_state_render_witness :
    sampleCart ≠ [] ∧
    (updateSummary (fun _ => ("")) sampleCart).checkoutDisabled = false :=
  ⟨by decide, (empty_state_render (fun _ => ("")) sampleCart (by decide)).2.2.2.2.2⟩

/-- C8: checkout postcondition — activating checkout on a non-empty
store empties the store, re-renders the summary in its empty state
(placeholder shown, checkout disabled), and resets every product's
visible quantity indicator to `"0"`, whether or not that product ever
had cart activity. -/
theorem checkout_postcondition (fmt : ℚ → String) (st : PageState)
    (_h : st.cart ≠ []) :
    (checkoutHandler fmt st).cart = [] ∧
    (checkoutHandler fmt st).summary.isEmpty = true ∧
    (checkoutHandler fmt st).summary.emptyMessageShown = true ∧
    (checkoutHandler fmt st).summary.checkoutDisabled = true ∧
    ∀ p ∈ (checkoutHandler fmt st).products, p.display = "0" := by
  refine ⟨rfl, rfl, rfl, rfl, ?_⟩
  intro p hp
  unfold checkoutHandler at hp
  simp only [List.mem_map] at hp
  obtain ⟨q, hq, hfq⟩ := hp
  rw [← hfq]

/-- C8 witness: on the sample page (non-empty cart, one product never
touched by the cart) checkout empties the cart and the display of the
untouched product `"Milk"` is reset to `"0"`. -/
theorem checkout_postcondition_witness :
    samplePage.cart ≠ [] ∧
    (checkoutHandler (fun _ => ("$")) samplePage).cart = [] ∧
    ((⟨"Milk", false, "0"⟩ : Product)).display = "0" :=
  ⟨by decide,
   (checkout_postcondition (fun _ => ("$")) samplePage (by decide)).1,
   (checkout_postcondition (fun _ => ("$")) samplePage (by decide)).2.2.2.2
     ((⟨"Milk", false, "0"⟩ : Product)) (by decide)⟩

/-! ## Lemmas about the search filter -/

theorem isPrefixL_iff (needle l : List Char) :
    isPrefixL needle l = true ↔ ∃ post, l = needle ++ post := by
  induction needle generalizing l with
  | nil =>
    simp only [isPrefixL, List.nil_append, true_iff]
    exact ⟨l, rfl⟩
  | cons a as ih =>
    cases l with
    | nil =>
      simp only [isPrefixL, Bool.false_eq_true, false_iff]
      rintro ⟨post, hpost⟩
      exact List.noConfusion hpost
    | cons b bs =>
      simp only [isPrefixL, Bool.and_eq_true, beq_iff_eq, ih, List.cons_append]
      constructor
      · rintro ⟨rfl, post, rfl⟩
        exact ⟨post, rfl⟩
      · rintro ⟨post, hpost⟩
        injection hpost with hb hbs
        exact ⟨hb.symm, post, hbs⟩

theorem includesSub_iff (needle hay : List Char) :
    includesSub needle hay = true ↔ ∃ pre post, hay = pre ++ needle ++ post := by
  induction hay with
  | nil =>
    rw [includesSub, isPrefixL_iff]
    constructor
    · rintro ⟨post, hpost⟩
      exact ⟨[], post, by simpa using hpost⟩
    · rintro ⟨pre, post, hpost⟩
      refine ⟨post, ?_⟩
      cases pre with
      | nil => simpa using hpost
      | cons x xs => exact List.noConfusion hpost
  | cons a t ih =>
    rw [includesSub]
    simp only [Bool.or_eq_true, isPrefixL_iff, ih]
    constructor
    · rintro (⟨post, hpost⟩ | ⟨pre, post, hpost⟩)
      · exact ⟨[], post, by simpa using hpost⟩
      · exact ⟨a :: pre, post, by simp [hpost]⟩
    · rintro ⟨pre, post, hpost⟩
      cases pre with
      | nil =>
        left
        exact ⟨post, by simpa using hpost⟩
      | cons x xs =>
        right
        rw [List.cons_append, List.cons_append] at hpost
        injection hpost with hx hxs
        exact ⟨xs, post, by simpa using hxs⟩

/-- C9: search filter correctness and frame — after the filter runs for a
query, a product is hidden exactly when its lower-cased name does not
contain the lower-cased query as a contiguous substring (matching is
case-insensitive), the product's other fields are untouched, and the cart
store is unchanged by filtering. -/
theorem search_filter_correct (term : String) (st : PageState) (i : Nat)
    (h1 : i < (searchHandler term st).products.length)
    (h2 : i < st.products.length) :
    (searchHandler term st).cart = st.cart ∧
    (searchHandler term st).products.length = st.products.length ∧
    ((((searchHandler term st).products.get ⟨i, h1⟩).hidden = true ↔
        ¬ ∃ pre post, toLowerL (((st.products.get ⟨i, h2⟩).name.data)) =
            pre ++ toLowerL term.data ++ post) ∧
      ((searchHandler term st).products.get ⟨i, h1⟩).name =
        (st.products.get ⟨i, h2⟩).name ∧
      ((searchHandler term st).products.get ⟨i, h1⟩).display =
        (st.products.get ⟨i, h2⟩).display) := by
  refine ⟨rfl, by simp [searchHandler], ?_⟩
  unfold searchHandler
  simp only [List.get_eq_getElem, List.getElem_map]
  by_cases hinc : includesSub (toLowerL term.data)
      (toLowerL ((st.products[i]).name.data)) = true
  · rw [if_pos hinc]
    refine ⟨?_, rfl, rfl⟩
    constructor
    · intro hfalse
      exact Bool.noConfusion hfalse
    · intro hn
      exact absurd ((includesSub_iff _ _).mp hinc) hn
  · rw [if_neg hinc]
    refine ⟨?_, rfl, rfl⟩
    constructor
    · intro _ hex
      exact hinc ((includesSub_iff _ _).mpr hex)
    · intro _
      rfl

/-- C9 witness: the upper-cased query `"CHOCO"` leaves `"Chocolate
Amargo"` visible — its lower-cased name contains `"choco"` — while the
cart of the page is untouched. -/
theorem search_filter_correct_witness :
    (searchHandler (("CHOCO" : String)) samplePage).cart = samplePage.cart ∧
    (((searchHandler (("CHOCO" : String)) samplePage).products.get
        ⟨0, by decide⟩).hidden = true ↔
      ¬ ∃ pre post, toLowerL (((samplePage.products.get ⟨0, by decide⟩).name.data)) =
          pre ++ toLowerL (("CHOCO" : String)).data ++ post) :=
  ⟨(search_filter_correct (("CHOCO" : String)) samplePage 0 (by decide) (by decide)).1,
   (search_filter_correct (("CHOCO" : String)) samplePage 0
     (by decide) (by decide)).2.2.1⟩

end Carrito
